import Mathlib

/-!
Card service: request handlers over a document store.

A shallow embedding of `main.go`: the `Card` model, `isValidCard`, and the
handlers `addCard`, `updateCard`, `getOneCard`, `getAllCards`, `deleteCard`
and `getIndex`.  Each handler is a function from the request and the state of
the `cards` collection to the HTTP response, the new state of the collection
and the list of store calls it issued.

Go strings are modelled as Lean strings (valid UTF-8 text); the Go builtin
`len` counts the bytes of the UTF-8 encoding.  Go `error` values are modelled
by their message text.  The collaborators the handlers call (the BSON
marshaller, the `primitive.ObjectID` helpers, `encoding/hex`, and the
operations of the collection) are modelled after their documented behaviour;
the JSON decoder of the request body and the HTML template are parameters.
The collection holds card-shaped documents only, and transport failures of the
store are outside the model.
-/

deriving instance DecidableEq for Except

namespace CardService

/-! ## Go strings -/

/-- Bytes of the UTF-8 encoding of one code point, which is how a Go string
stores it. -/
def utf8Encode (c : Char) : List Nat :=
  let v := c.toNat
  if v ≤ 0x7f then [v]
  else if v ≤ 0x7ff then [0xc0 + v / 64, 0x80 + v % 64]
  else if v ≤ 0xffff then [0xe0 + v / 4096, 0x80 + v / 64 % 64, 0x80 + v % 64]
  else [0xf0 + v / 262144, 0x80 + v / 4096 % 64, 0x80 + v / 64 % 64, 0x80 + v % 64]

/-- Bytes of a list of code points. -/
def bytesOf : List Char → List Nat
  | [] => []
  | c :: cs => utf8Encode c ++ bytesOf cs

/-- The byte sequence `[]byte(s)` of a Go string. -/
def goBytes (s : String) : List Nat := bytesOf s.data

/-- Go builtin `len(s)` on a string: the number of bytes, not of characters. -/
def len (s : String) : Nat := (goBytes s).length

/-! ## `encoding/hex` and `primitive.ObjectID` -/

/-- A `primitive.ObjectID`, the Go type `[12]byte`. -/
def ObjectID : Type := { bs : List (Fin 256) // bs.length = 12 }

instance : DecidableEq ObjectID :=
  inferInstanceAs (DecidableEq { bs : List (Fin 256) // bs.length = 12 })

/-- The zero value `primitive.NilObjectID`. -/
def NilObjectID : ObjectID := ⟨List.replicate 12 0, by simp⟩

/-- Modelled from the spec: method `ObjectID.IsZero` of the store driver, not
part of the repository: whether the id is the all-zero id. -/
def ObjectID.IsZero (id : ObjectID) : Bool := decide (id = NilObjectID)

/-- The digit table `"0123456789abcdef"` of `encoding/hex`. -/
def hextable : List Char :=
  ['0', '1', '2', '3', '4', '5', '6', '7', '8', '9', 'a', 'b', 'c', 'd', 'e', 'f']

/-- The table entry `hextable[n]`. -/
def hexDigit (n : Nat) : Char := hextable.getD n '0'

/-- Modelled from the spec: function `hex.EncodeToString` of the standard
library on the bytes of an id: two digits per byte. -/
def hexEncode : List (Fin 256) → List Char
  | [] => []
  | b :: bs => hexDigit (b.val / 16) :: hexDigit (b.val % 16) :: hexEncode bs

/-- Modelled from the spec: method `ObjectID.Hex` of the store driver, not part
of the repository, which is also how `MarshalJSON` renders an id: the
fixed-width hex token of 24 characters. -/
def ObjectID.Hex (id : ObjectID) : String := String.mk (hexEncode id.val)

/-- Modelled from the spec: function `fromHexChar` of `encoding/hex`: the value
of one hex digit byte, in either case. -/
def fromHexChar (b : Nat) : Option Nat :=
  if 48 ≤ b ∧ b ≤ 57 then some (b - 48)
  else if 97 ≤ b ∧ b ≤ 102 then some (b - 97 + 10)
  else if 65 ≤ b ∧ b ≤ 70 then some (b - 65 + 10)
  else none

/-- Errors of `hex.Decode`. -/
inductive HexError where
  | InvalidByteError (b : Nat)
  | ErrLength
deriving DecidableEq, Repr

/-- Modelled from the spec: function `hex.Decode` of the standard library:
pairs of digits to bytes, stopping at the first byte that is not a hex digit;
an odd trailing digit is a length error. -/
def hexDecode : List Nat → Except HexError (List (Fin 256))
  | [] => .ok []
  | [p] =>
    match fromHexChar p with
    | none => .error (.InvalidByteError p)
    | some _ => .error .ErrLength
  | p :: q :: rest =>
    match fromHexChar p with
    | none => .error (.InvalidByteError p)
    | some a =>
      match fromHexChar q with
      | none => .error (.InvalidByteError q)
      | some b =>
        match hexDecode rest with
        | .error e => .error e
        | .ok bs => .ok (Fin.ofNat ((a * 16 + b) % 256) :: bs)

/-- Modelled from the spec: function `strconv.IsPrint` of the standard library
on a rune below 256. -/
def isPrintLatin1 (r : Nat) : Bool :=
  (0x20 ≤ r && r ≤ 0x7e) || (0xa1 ≤ r && r ≤ 0xff && r != 0xad)

/-- Upper-case hex digit used by the `%U` verb. -/
def upperHexDigit (n : Nat) : Char :=
  (['0', '1', '2', '3', '4', '5', '6', '7', '8', '9', 'A', 'B', 'C', 'D', 'E', 'F']).getD n '0'

/-- Modelled from the spec: the `%#U` rendering of package `fmt` for a rune
below 256, as in `U+0022 '"'`. -/
def fmtSharpU (r : Nat) : String :=
  let code := String.mk ['U', '+', '0', '0', upperHexDigit (r / 16 % 16), upperHexDigit (r % 16)]
  if isPrintLatin1 r then code ++ " '" ++ String.mk [Char.ofNat r] ++ "'" else code

/-- Modelled from the spec: method `Error` of the errors of `encoding/hex`. -/
def HexError.Error : HexError → String
  | .InvalidByteError b => "encoding/hex: invalid byte: " ++ fmtSharpU b
  | .ErrLength => "encoding/hex: odd length hex string"

/-- Message of `primitive.ErrInvalidHex`. -/
def ErrInvalidHex : String := "the provided hex string is not a valid ObjectID"

/-- Modelled from the spec: function `primitive.ObjectIDFromHex` of the store
driver, not part of the repository, which parses the identifier format.  A
string that is not 24 bytes long is rejected with `ErrInvalidHex`, otherwise
the string is hex-decoded into the 12 bytes of the id and a decoding error is
returned as it is. -/
def ObjectIDFromHex (s : String) : Except String ObjectID :=
  if len s ≠ 24 then .error ErrInvalidHex
  else
    match hexDecode (goBytes s) with
    | .error e => .error e.Error
    | .ok bs => if h : bs.length = 12 then .ok ⟨bs, h⟩ else .error ErrInvalidHex

/-! ## The card model -/

/-- The Go struct `Card`. -/
structure Card where
  ID : ObjectID
  Name : String
  Width : String
  Height : String
deriving DecidableEq

/-- The name `reflect.TypeOf(x).String()` of the type of a string field. -/
def reflectTypeOfString (_ : String) : String := "string"

/-- Message of the error `isValidCard` returns. -/
def errInvalidCard : String := "isValidCard() failed, missing fields in Insert()"

/-- Function `isValidCard`: counts the fields that are too short and returns
an error when the count is not zero, `none` (Go `nil`) otherwise. -/
def isValidCard (card : Card) : Option String :=
  let errCnt := 0
  let errCnt :=
    if len card.Name < 2 || reflectTypeOfString card.Name != "string" then errCnt + 1 else errCnt
  let errCnt :=
    if len card.Width < 2 || reflectTypeOfString card.Width != "string" then errCnt + 1 else errCnt
  let errCnt :=
    if len card.Height < 2 || reflectTypeOfString card.Height != "string" then errCnt + 1 else errCnt
  if errCnt != 0 then some errInvalidCard else none

/-! ## BSON documents and the `cards` collection -/

/-- A card marshalled to BSON.  Every field of `Card` carries the struct tag
`omitempty`, so a field is left out when it is empty. -/
structure BsonCard where
  _id : Option ObjectID
  name : Option String
  width : Option String
  height : Option String
deriving DecidableEq

/-- A stored document of the `cards` collection: the store gives every
document an `_id`; the other fields are present or not. -/
structure Doc where
  _id : ObjectID
  name : Option String
  width : Option String
  height : Option String
deriving DecidableEq

/-- State of the `cards` collection, in insertion order. -/
abbrev Store : Type := List Doc

/-- The store keeps `_id` unique within a collection. -/
def Store.UniqueIds (db : Store) : Prop := (db.map (fun d => d._id)).Nodup

instance (db : Store) : Decidable db.UniqueIds := by
  unfold Store.UniqueIds
  infer_instance

/-- Modelled from the spec: the BSON marshaller of the store driver, which is
not part of the repository, applied to a `Card`.  Under the tag `omitempty` a
string is left out when its length is zero and an `ObjectID` when `IsZero`
holds. -/
def marshalCard (c : Card) : BsonCard :=
  { _id := if c.ID.IsZero then none else some c.ID
    name := if len c.Name = 0 then none else some c.Name
    width := if len c.Width = 0 then none else some c.Width
    height := if len c.Height = 0 then none else some c.Height }

/-- Modelled from the spec: decoding a stored document into a zero-valued
`Card` (driver method `SingleResult.Decode` and `Cursor.Decode`, not part of the
repository); a field the document lacks keeps its zero value. -/
def decodeDoc (d : Doc) : Card :=
  { ID := d._id
    Name := d.name.getD ""
    Width := d.width.getD ""
    Height := d.height.getD "" }

/-- A query filter matches a document when every field the filter holds is in
the document with an equal value; the empty filter matches every document. -/
def matchesFilter (f : BsonCard) (d : Doc) : Bool :=
  (f._id.isNone || f._id == some d._id) &&
  (f.name.isNone || f.name == d.name) &&
  (f.width.isNone || f.width == d.width) &&
  (f.height.isNone || f.height == d.height)

/-- Message of `mongo.ErrNoDocuments`. -/
def ErrNoDocuments : String := "mongo: no documents in result"

/-- Message of the duplicate-key write error of the store. -/
def errDuplicateKey (id : ObjectID) : String :=
  "E11000 duplicate key error collection: cards index: _id_ dup key: ObjectId('" ++ id.Hex ++ "')"

/-- Result of `InsertOne`. -/
structure InsertOneResult where
  InsertedID : ObjectID
deriving DecidableEq

/-- Result of `UpdateOne`. -/
structure UpdateResult where
  MatchedCount : Nat
  ModifiedCount : Nat
  UpsertedCount : Nat
  UpsertedID : Option ObjectID
deriving DecidableEq

/-- Result of `DeleteOne`. -/
structure DeleteResult where
  DeletedCount : Nat
deriving DecidableEq

/-- Modelled from the spec: the store operation `findOne(filter)` (driver
method `Collection.FindOne`, not part of the repository): the first document
the filter matches, or the error `ErrNoDocuments`. -/
def FindOne (filter : BsonCard) (db : Store) : Except String Doc :=
  match db.find? (matchesFilter filter) with
  | none => .error ErrNoDocuments
  | some d => .ok d

/-- Modelled from the spec: the store operation `findMany(filter)` with the
empty filter `bson.M{}` (driver method `Collection.Find`, not part of the
repository): a cursor over every document of the collection. -/
def Find (db : Store) : List Doc := db

/-- Modelled from the spec: the store operation `insertOne(doc)` (driver method
`Collection.InsertOne`, not part of the repository).  A document without `_id`
gets the id the driver generates, here `driverID`; an `_id` that is already
stored is a duplicate-key error; otherwise the document is appended and its id
is acknowledged. -/
def InsertOne (doc : BsonCard) (driverID : ObjectID) (db : Store) :
    Except String (InsertOneResult × Store) :=
  let id := match doc._id with
    | some id => id
    | none => driverID
  if db.any (fun d => d._id == id) then .error (errDuplicateKey id)
  else .ok (⟨id⟩, db ++ [{ _id := id, name := doc.name, width := doc.width, height := doc.height }])

/-- The update `$set` of `width` and `height` on one document. -/
def setWidthHeight (width height : String) (d : Doc) : Doc :=
  { d with width := some width, height := some height }

/-- Applies the update to the first document with the given `_id`. -/
def updateFirst (id : ObjectID) (width height : String) : Store → Store
  | [] => []
  | d :: ds =>
    if d._id = id then setWidthHeight width height d :: ds
    else d :: updateFirst id width height ds

/-- Modelled from the spec: the store operation `updateOne(filter, update)`
(driver method `Collection.UpdateOne`, not part of the repository) with the
filter `_id = id` and the update `$set` of `width` and `height`: the first
document with that id is updated, and the acknowledgment counts the documents
matched and modified. -/
def UpdateOne (id : ObjectID) (width height : String) (db : Store) :
    Except String (UpdateResult × Store) :=
  match db.find? (fun d => d._id == id) with
  | none => .ok (⟨0, 0, 0, none⟩, db)
  | some d =>
    .ok (⟨1, if setWidthHeight width height d = d then 0 else 1, 0, none⟩,
      updateFirst id width height db)

/-- Removes the first document with the given `_id`. -/
def removeFirst (id : ObjectID) : Store → Store
  | [] => []
  | d :: ds => if d._id = id then ds else d :: removeFirst id ds

/-- Modelled from the spec: the store operation `deleteOne(filter)` (driver
method `Collection.DeleteOne`, not part of the repository) with the filter
`_id = id`: the first document with that id is removed, and the acknowledgment
counts the documents deleted. -/
def DeleteOne (id : ObjectID) (db : Store) : Except String (DeleteResult × Store) :=
  if db.any (fun d => d._id == id) then .ok (⟨1⟩, removeFirst id db)
  else .ok (⟨0⟩, db)

/-! ## Requests, responses and handlers -/

/-- A call a handler issues on the collection. -/
inductive StoreCall where
  | FindOne (filter : BsonCard)
  | Find
  | InsertOne (doc : BsonCard)
  | UpdateOne (id : ObjectID) (width height : String)
  | DeleteOne (id : ObjectID)
deriving DecidableEq

/-- What a handler writes as the response body: raw bytes given to `w.Write`,
the value given to the JSON encoder, or the output of the HTML template. -/
inductive Body where
  | raw (bytes : String)
  | insertAck (ret : InsertOneResult)
  | updateAck (ret : UpdateResult)
  | deleteAck (ret : DeleteResult)
  | card (ret : Card)
  | cards (ret : List Card)
  | html (bytes : String)
deriving DecidableEq

/-- An HTTP response: the status code and the body. -/
structure Response where
  status : Nat
  body : Body
deriving DecidableEq

/-- Outcome of a handler: the response, the collection afterwards and the
calls issued on the collection, in order. -/
structure Result where
  resp : Response
  db : Store
  calls : List StoreCall
deriving DecidableEq

/-- Status `http.StatusOK`. -/
def StatusOK : Nat := 200
/-- Status `http.StatusBadRequest`. -/
def StatusBadRequest : Nat := 400
/-- Status `http.StatusNotFound`. -/
def StatusNotFound : Nat := 404

/-- The error body every handler writes: the message pasted between two
literal pieces of text, without escaping. -/
def errorBody (msg : String) : String := "\x7b \"error\": \"" ++ msg ++ "\" \x7d"

/-- Handler `addCard`.  `decode` is the JSON decoder applied to the request
body, `newObjectID` the value `primitive.NewObjectID()` returns. -/
def addCard (decode : String → Except String Card) (newObjectID driverID : ObjectID)
    (body : String) (db : Store) : Result :=
  match decode body with
  | .error err => ⟨⟨StatusBadRequest, .raw (errorBody err)⟩, db, []⟩
  | .ok card =>
    match isValidCard card with
    | some err => ⟨⟨StatusBadRequest, .raw (errorBody err)⟩, db, []⟩
    | none =>
      let card := { card with ID := newObjectID }
      match InsertOne (marshalCard card) driverID db with
      | .error err =>
        ⟨⟨StatusBadRequest, .raw (errorBody err)⟩, db, [.InsertOne (marshalCard card)]⟩
      | .ok (ret, db') => ⟨⟨StatusOK, .insertAck ret⟩, db', [.InsertOne (marshalCard card)]⟩

/-- Handler `updateCard`.  `id` is the path parameter. -/
def updateCard (decode : String → Except String Card) (id : String) (body : String)
    (db : Store) : Result :=
  match ObjectIDFromHex id with
  | .error err => ⟨⟨StatusBadRequest, .raw (errorBody err)⟩, db, []⟩
  | .ok id =>
    match decode body with
    | .error err => ⟨⟨StatusBadRequest, .raw (errorBody err)⟩, db, []⟩
    | .ok card =>
      match UpdateOne id card.Width card.Height db with
      | .error err =>
        ⟨⟨StatusBadRequest, .raw (errorBody err)⟩, db, [.UpdateOne id card.Width card.Height]⟩
      | .ok (ret, db') =>
        ⟨⟨StatusOK, .updateAck ret⟩, db', [.UpdateOne id card.Width card.Height]⟩

/-- Handler `getOneCard`.  The filter is the struct `Card{ID: id}`, marshalled
like any other card. -/
def getOneCard (id : String) (db : Store) : Result :=
  match ObjectIDFromHex id with
  | .error err => ⟨⟨StatusBadRequest, .raw (errorBody err)⟩, db, []⟩
  | .ok id =>
    let filter := marshalCard { ID := id, Name := "", Width := "", Height := "" }
    match FindOne filter db with
    | .error err => ⟨⟨StatusNotFound, .raw (errorBody err)⟩, db, [.FindOne filter]⟩
    | .ok d => ⟨⟨StatusOK, .card (decodeDoc d)⟩, db, [.FindOne filter]⟩

/-- Handler `getAllCards`. -/
def getAllCards (db : Store) : Result :=
  let ret := (Find db).map decodeDoc
  if ret.length = 0 then ⟨⟨StatusNotFound, .raw (errorBody "No records found")⟩, db, [.Find]⟩
  else ⟨⟨StatusOK, .cards ret⟩, db, [.Find]⟩

/-- Handler `deleteCard`. -/
def deleteCard (id : String) (db : Store) : Result :=
  match ObjectIDFromHex id with
  | .error err => ⟨⟨StatusBadRequest, .raw (errorBody err)⟩, db, []⟩
  | .ok id =>
    match DeleteOne id db with
    | .error err => ⟨⟨StatusBadRequest, .raw (errorBody err)⟩, db, [.DeleteOne id]⟩
    | .ok (ret, db') => ⟨⟨StatusOK, .deleteAck ret⟩, db', [.DeleteOne id]⟩

/-- Handler `getIndex`.  `render` is the HTML template applied to the card;
the handler sets no status on success, which the server sends as 200. -/
def getIndex (render : Card → String) (id : String) (db : Store) : Result :=
  match ObjectIDFromHex id with
  | .error err => ⟨⟨StatusBadRequest, .raw (errorBody err)⟩, db, []⟩
  | .ok id =>
    let filter := marshalCard { ID := id, Name := "", Width := "", Height := "" }
    match FindOne filter db with
    | .error err => ⟨⟨StatusNotFound, .raw (errorBody err)⟩, db, [.FindOne filter]⟩
    | .ok d => ⟨⟨StatusOK, .html (render (decodeDoc d))⟩, db, [.FindOne filter]⟩

/-! ## The JSON error envelope -/

/-- JSON insignificant whitespace. -/
def isJsonSpace (c : Char) : Bool := c == ' ' || c == '\t' || c == '\n' || c == '\r'

/-- Drops leading whitespace. -/
def skipSpace : List Char → List Char
  | [] => []
  | c :: cs => if isJsonSpace c then skipSpace cs else c :: cs

/-- Consumes the expected character. -/
def expectChar (c : Char) : List Char → Option (List Char)
  | [] => none
  | d :: cs => if d = c then some cs else none

/-- The character a one-letter JSON escape stands for. -/
def unescape (c : Char) : Option Char :=
  if c = '"' then some '"'
  else if c = '\\' then some '\\'
  else if c = '/' then some '/'
  else if c = 'b' then some (Char.ofNat 8)
  else if c = 'f' then some (Char.ofNat 12)
  else if c = 'n' then some '\n'
  else if c = 'r' then some '\r'
  else if c = 't' then some '\t'
  else none

/-- The character of a four-digit escape; a surrogate code unit reads as
U+FFFD. -/
def codeUnit (ds : List Nat) : Char :=
  let v := ds.foldl (fun acc d => acc * 16 + d) 0
  if 0xd800 ≤ v ∧ v ≤ 0xdfff then Char.ofNat 0xfffd else Char.ofNat v

/-- Where the scanner of a JSON string literal stands. -/
inductive ScanState where
  | plain
  | escape
  | unicode (digits : List Nat)

/-- Scans a JSON string literal from just after its opening quote: the text
it denotes and the input after its closing quote, or `none` when the literal is
malformed (unterminated, a raw control character, an unknown escape). -/
def scanString : ScanState → List Char → Option (List Char × List Char)
  | _, [] => none
  | .plain, c :: cs =>
    if c = '"' then some ([], cs)
    else if c = '\\' then scanString .escape cs
    else if c.toNat < 0x20 then none
    else (scanString .plain cs).map (fun r => (c :: r.1, r.2))
  | .escape, c :: cs =>
    if c = 'u' then scanString (.unicode []) cs
    else
      match unescape c with
      | none => none
      | some e => (scanString .plain cs).map (fun r => (e :: r.1, r.2))
  | .unicode ds, c :: cs =>
    match fromHexChar c.toNat with
    | none => none
    | some v =>
      if ds.length = 3 then
        (scanString .plain cs).map (fun r => (codeUnit (ds ++ [v]) :: r.1, r.2))
      else scanString (.unicode (ds ++ [v])) cs

/-- Reads a body as a JSON object with the single member `"error"` whose value
is a string, and returns the message the value denotes; `none` when the body
is not such a well-formed JSON text. -/
def parseErrorEnvelope (body : String) : Option String :=
  match expectChar '\x7b' (skipSpace body.data) with
  | none => none
  | some cs =>
    match expectChar '"' (skipSpace cs) with
    | none => none
    | some cs =>
      match scanString .plain cs with
      | none => none
      | some (key, cs) =>
        if key ≠ ['e', 'r', 'r', 'o', 'r'] then none
        else
          match expectChar ':' (skipSpace cs) with
          | none => none
          | some cs =>
            match expectChar '"' (skipSpace cs) with
            | none => none
            | some cs =>
              match scanString .plain cs with
              | none => none
              | some (msg, cs) =>
                match expectChar '\x7d' (skipSpace cs) with
                | none => none
                | some cs => if skipSpace cs = [] then some (String.mk msg) else none

/-! ## Fixtures of the test suite -/

/-- The decoder on the request bodies the test suite sends: field names are
matched without regard to case and a field the body lacks stays empty. -/
def testDecode (body : String) : Except String Card :=
  if body = "\x7b\"Height\":\"333px\"\x7d" then
    .ok { ID := NilObjectID, Name := "", Width := "", Height := "333px" }
  else if body = "\x7b\"Name\":\"Test card name goes here\",\"Width\":\"111px\",\"Height\":\"222px\"\x7d" then
    .ok { ID := NilObjectID, Name := "Test card name goes here", Width := "111px", Height := "222px" }
  else if body = "\x7b\"Width\":\"777px\",\"Height\":\"888px\"\x7d" then
    .ok { ID := NilObjectID, Name := "", Width := "777px", Height := "888px" }
  else if body = "\x7b\"Width\":\"\"\x7d" then
    .ok { ID := NilObjectID, Name := "", Width := "", Height := "" }
  else .error "unexpected end of JSON input"

/-- The decoder on a request body whose name is the single character `é`. -/
def accentDecode (body : String) : Except String Card :=
  if body = "\x7b\"name\":\"é\",\"width\":\"10px\",\"height\":\"20px\"\x7d" then
    .ok { ID := NilObjectID, Name := "é", Width := "10px", Height := "20px" }
  else .error "unexpected end of JSON input"

/-- A stand-in for the template `card.html`. -/
def testRender (card : Card) : String := "<h1>" ++ card.Name ++ "</h1>"

/-- An id as `primitive.NewObjectID` returns it. -/
def sampleID : ObjectID :=
  ⟨[0x65, 0x4a, 0x1f, 0x00, 0x9c, 0x3b, 0x7a, 0x10, 0x2d, 0x44, 0x00, 0x01], by decide⟩

/-- Another id. -/
def otherID : ObjectID :=
  ⟨[0x65, 0x4a, 0x1f, 0x00, 0x9c, 0x3b, 0x7a, 0x10, 0x2d, 0x44, 0x00, 0x02], by decide⟩

/-- A stored card. -/
def sampleDoc : Doc :=
  { _id := sampleID, name := some "Test card name goes here", width := some "111px",
    height := some "222px" }

/-- A second stored card. -/
def otherDoc : Doc :=
  { _id := otherID, name := some "Second card", width := some "10px", height := some "20px" }

/-! ## Well-formed identifiers -/

/-- A hex digit, in either case. -/
def isHexChar (c : Char) : Bool :=
  (48 ≤ c.toNat && c.toNat ≤ 57) || (97 ≤ c.toNat && c.toNat ≤ 102) ||
    (65 ≤ c.toNat && c.toNat ≤ 70)

/-- A well-formed identifier: exactly 24 characters, every one a hex digit. -/
def WellFormedID (s : String) : Prop := s.length = 24 ∧ ∀ c ∈ s.data, isHexChar c = true

instance (s : String) : Decidable (WellFormedID s) := by
  unfold WellFormedID
  infer_instance

/-! ## Server lifecycle -/

/-- Message of `http.ErrServerClosed`. -/
def ErrServerClosed : String := "http: Server closed"

/-- Why the listener stopped serving. -/
inductive ListenerStop where
  | failure (msg : String)
  | serverClosed
deriving DecidableEq

/-- Modelled from the spec: method `Server.ListenAndServe` of the standard
library, not part of the repository.  It blocks while the listener serves and
always returns a non-nil error: the failure of the listener, or
`ErrServerClosed` once `Shutdown` or `Close` has been called. -/
def ListenAndServe : ListenerStop → Option String
  | .failure msg => some msg
  | .serverClosed => some ErrServerClosed

/-- Where the goroutine started by `startHttp` stands: blocked in
`ListenAndServe`, back from it with `err`, or ended after `wg.Done()`. -/
inductive ListenerPc where
  | serving
  | returned (err : Option String)
  | done
deriving DecidableEq

/-- Where `main` stands: blocked on the signal channel, entering the deferred
`stopHttp`, blocked in `wg.Wait()`, or back from `stopHttp` with `err`. -/
inductive MainPc where
  | awaitSignal
  | shutdown
  | wait
  | returned (err : Option String)
deriving DecidableEq

/-- State of the process: the status given to `os.Exit` or taken on return
from `main` (none while the process runs), the counter of the wait group,
whether `Shutdown` or `Close` was called on the server, and the two tasks. -/
structure Process where
  exitStatus : Option Nat
  wg : Nat
  closed : Bool
  listener : ListenerPc
  main : MainPc
deriving DecidableEq

/-- Function `startHttp`, as `main` finds the process once it has returned and
`main` blocks on the signal channel: `wg.Add(1)` is done and the goroutine is
in `ListenAndServe`. -/
def startHttp : Process :=
  { exitStatus := none, wg := 1, closed := false, listener := .serving, main := .awaitSignal }

/-- One statement of the goroutine of `startHttp`.  In `ListenAndServe` it
stays blocked until the server is closed; back from it, a non-nil `err` is
logged and the process exits with status 6, and only a nil `err` reaches
`wg.Done()`. -/
def listenerStep (p : Process) : Process :=
  match p.listener with
  | .serving =>
    if p.closed then { p with listener := .returned (ListenAndServe .serverClosed) } else p
  | .returned err =>
    match err with
    | some _ => { p with exitStatus := some 6 }
    | none => { p with wg := p.wg - 1, listener := .done }
  | .done => p

/-- One statement of `main` from the deferred `stopHttp` on.  `shutdownErr` and
`closeErr` are what `Shutdown` and `Close` return.  `Shutdown` closes the
server; when it fails `Close` is called, whose error is returned at once;
otherwise `wg.Wait()` blocks until the counter is zero and `stopHttp` returns
nil.  Back from `stopHttp`, `main` returns and the process ends with status
0. -/
def stopHttp (shutdownErr closeErr : Option String) (p : Process) : Process :=
  match p.main with
  | .awaitSignal => p
  | .shutdown =>
    match shutdownErr with
    | some _ =>
      match closeErr with
      | some err => { p with closed := true, main := .returned (some err) }
      | none => { p with closed := true, main := .wait }
    | none => { p with closed := true, main := .wait }
  | .wait => if p.wg = 0 then { p with main := .returned none } else p
  | .returned _ => { p with exitStatus := some 0 }

/-- What can happen next: the interrupt signal arrives, the listener fails,
`main` runs its next statement, or the goroutine runs its next statement. -/
inductive Event where
  | signal
  | listenerFails (msg : String)
  | mainRuns (shutdownErr closeErr : Option String)
  | listenerRuns
deriving DecidableEq

/-- One step of the process.  A process that has exited does nothing more; an
event that is not possible in the state changes nothing. -/
def step (p : Process) (e : Event) : Process :=
  if p.exitStatus.isSome then p
  else
    match e with
    | .signal => if p.main = .awaitSignal then { p with main := .shutdown } else p
    | .listenerFails msg =>
      if p.listener = .serving ∧ p.closed = false then
        { p with listener := .returned (ListenAndServe (.failure msg)) }
      else p
    | .mainRuns shutdownErr closeErr => stopHttp shutdownErr closeErr p
    | .listenerRuns => listenerStep p

/-- The process after a sequence of events. -/
def run (events : List Event) (p : Process) : Process := events.foldl step p

/-- The lifecycle state `Stopped`: `stopHttp` has returned nil after its wait,
with the background task joined. -/
def Stopped (p : Process) : Prop :=
  p.main = .returned none ∧ p.listener = .done ∧ p.wg = 0

instance (p : Process) : Decidable (Stopped p) := by
  unfold Stopped
  infer_instance

/-- A graceful shutdown: the signal arrives, `main` calls `Shutdown`, which
succeeds, and blocks in `wg.Wait()`; the goroutine comes back from
`ListenAndServe` and runs its next statement; `main` tries again. -/
def gracefulShutdown : List Event :=
  [.signal, .mainRuns none none, .listenerRuns, .listenerRuns, .mainRuns none none]

/-- What every reachable state of the process satisfies: the counter of the
wait group is still 1, the goroutine has not reached `wg.Done()` and is not
back from `ListenAndServe` with a nil error, and `stopHttp` has not returned
nil. -/
def ListenerNeverDone (p : Process) : Prop :=
  p.wg = 1 ∧ p.listener ≠ .done ∧ p.listener ≠ .returned none ∧ p.main ≠ .returned none

/-! ## Lemmas on strings and hex -/

theorem utf8Encode_ne_nil (c : Char) : 1 ≤ (utf8Encode c).length := by
  unfold utf8Encode
  simp only []
  split_ifs <;> simp

theorem length_le_bytesOf (cs : List Char) : cs.length ≤ (bytesOf cs).length := by
  induction cs with
  | nil => simp [bytesOf]
  | cons c cs ih =>
    have := utf8Encode_ne_nil c
    simp only [bytesOf, List.length_cons, List.length_append]
    omega

theorem length_le_len (s : String) : s.length ≤ len s := by
  unfold len goBytes
  exact length_le_bytesOf s.data

theorem fromHexChar_isHexChar (c : Char) :
    fromHexChar c.toNat ≠ none ↔ isHexChar c = true := by
  unfold fromHexChar isHexChar
  split_ifs <;> simp <;> omega

theorem utf8Encode_of_isHexChar (c : Char) (h : isHexChar c = true) :
    utf8Encode c = [c.toNat] := by
  unfold isHexChar at h
  unfold utf8Encode
  simp only [Bool.or_eq_true, Bool.and_eq_true, decide_eq_true_eq] at h
  simp only []
  rw [if_pos (by omega)]

theorem isHexChar_of_utf8Encode (c : Char)
    (h : ∀ b ∈ utf8Encode c, fromHexChar b ≠ none) : isHexChar c = true := by
  unfold utf8Encode at h
  simp only [] at h
  split_ifs at h with h1 h2 h3
  · exact (fromHexChar_isHexChar c).1 (h _ (by simp))
  · exact absurd (by unfold fromHexChar; split_ifs <;> first | rfl | omega) (h (0xc0 + c.toNat / 64) (by simp))
  · exact absurd (by unfold fromHexChar; split_ifs <;> first | rfl | omega) (h (0xe0 + c.toNat / 4096) (by simp))
  · exact absurd (by unfold fromHexChar; split_ifs <;> first | rfl | omega) (h (0xf0 + c.toNat / 262144) (by simp))

theorem bytesOf_of_hex (cs : List Char) (h : ∀ c ∈ cs, isHexChar c = true) :
    bytesOf cs = cs.map Char.toNat := by
  induction cs with
  | nil => rfl
  | cons c cs ih =>
    simp only [bytesOf, List.map_cons]
    rw [utf8Encode_of_isHexChar c (h c (by simp)), ih (fun d hd => h d (by simp [hd]))]
    rfl

theorem hex_of_bytesOf (cs : List Char) (h : ∀ b ∈ bytesOf cs, fromHexChar b ≠ none) :
    ∀ c ∈ cs, isHexChar c = true := by
  induction cs with
  | nil => simp
  | cons c cs ih =>
    simp only [bytesOf, List.mem_append] at h
    intro d hd
    rcases List.mem_cons.1 hd with rfl | hd
    · exact isHexChar_of_utf8Encode d (fun b hb => h b (Or.inl hb))
    · exact ih (fun b hb => h b (Or.inr hb)) d hd

theorem hexDecode_ok (l : List Nat) (bs : List (Fin 256)) (h : hexDecode l = .ok bs) :
    (∀ b ∈ l, fromHexChar b ≠ none) ∧ l.length = 2 * bs.length := by
  induction l using hexDecode.induct generalizing bs with
  | case1 =>
    simp [hexDecode] at h
    subst h
    simp
  | case2 p hp => simp [hexDecode, hp] at h
  | case3 p a hp => simp [hexDecode, hp] at h
  | case4 p q rest hp => simp [hexDecode, hp] at h
  | case5 p q rest a hp hq => simp [hexDecode, hp, hq] at h
  | case6 p q rest a hp b hq e he ih => simp [hexDecode, hp, hq, he] at h
  | case7 p q rest a hp b hq bs' he ih =>
    simp only [hexDecode, hp, hq, he, Except.ok.injEq] at h
    subst h
    obtain ⟨h1, h2⟩ := ih bs' he
    refine ⟨?_, ?_⟩
    · intro x hx
      simp only [List.mem_cons] at hx
      rcases hx with rfl | rfl | hx
      · simp [hp]
      · simp [hq]
      · exact h1 x hx
    · simp only [List.length_cons]
      omega

theorem hexDecode_of_hex (n : Nat) (l : List Nat) (h : ∀ b ∈ l, fromHexChar b ≠ none)
    (hl : l.length = 2 * n) : ∃ bs, hexDecode l = .ok bs ∧ bs.length = n := by
  induction n generalizing l with
  | zero =>
    have : l = [] := List.length_eq_zero.1 (by omega)
    subst this
    exact ⟨[], rfl, rfl⟩
  | succ n ih =>
    rcases l with _ | ⟨p, _ | ⟨q, rest⟩⟩
    · simp at hl
    · simp at hl
      omega
    · obtain ⟨a, ha⟩ := Option.ne_none_iff_exists'.1 (h p (by simp))
      obtain ⟨b, hb⟩ := Option.ne_none_iff_exists'.1 (h q (by simp))
      obtain ⟨bs, hbs, hlen⟩ := ih rest (fun x hx => h x (by simp [hx]))
        (by simp only [List.length_cons] at hl; omega)
      refine ⟨Fin.ofNat ((a * 16 + b) % 256) :: bs, ?_, by simp [hlen]⟩
      simp only [hexDecode, ha, hb, hbs]

theorem ObjectIDFromHex_ok_of_wellFormed (s : String) (h : WellFormedID s) :
    ∃ oid, ObjectIDFromHex s = .ok oid := by
  obtain ⟨h24, hhex⟩ := h
  have hb : goBytes s = s.data.map Char.toNat := bytesOf_of_hex s.data hhex
  have hlen : len s = 24 := by
    unfold len
    rw [hb, List.length_map]
    exact h24
  have hall : ∀ b ∈ goBytes s, fromHexChar b ≠ none := by
    intro b hbm
    rw [hb, List.mem_map] at hbm
    obtain ⟨c, hc, rfl⟩ := hbm
    exact (fromHexChar_isHexChar c).2 (hhex c hc)
  obtain ⟨bs, hbs, hl⟩ := hexDecode_of_hex 12 (goBytes s) hall (by unfold len at hlen; omega)
  refine ⟨⟨bs, hl⟩, ?_⟩
  unfold ObjectIDFromHex
  simp [hlen, hbs, hl]

theorem wellFormed_of_ObjectIDFromHex_ok (s : String) (oid : ObjectID)
    (h : ObjectIDFromHex s = .ok oid) : WellFormedID s := by
  unfold ObjectIDFromHex at h
  split_ifs at h with hlen
  split at h
  · simp at h
  · rename_i bs hbs
    obtain ⟨hall, _⟩ := hexDecode_ok _ _ hbs
    have hhex := hex_of_bytesOf s.data hall
    refine ⟨?_, hhex⟩
    have hb : goBytes s = s.data.map Char.toNat := bytesOf_of_hex s.data hhex
    have : len s = 24 := by omega
    unfold len at this
    rw [hb, List.length_map] at this
    exact this

theorem ObjectIDFromHex_error_of_not_wellFormed (s : String) (h : ¬ WellFormedID s) :
    ∃ msg, ObjectIDFromHex s = .error msg := by
  cases hres : ObjectIDFromHex s with
  | error msg => exact ⟨msg, rfl⟩
  | ok oid => exact absurd (wellFormed_of_ObjectIDFromHex_ok s oid hres) h

theorem hexDigit_spec : ∀ n : Fin 16,
    isHexChar (hexDigit n.val) = true ∧ fromHexChar (hexDigit n.val).toNat = some n.val := by
  decide

theorem hexEncode_length (bs : List (Fin 256)) : (hexEncode bs).length = 2 * bs.length := by
  induction bs with
  | nil => rfl
  | cons b bs ih =>
    simp only [hexEncode, List.length_cons, ih]
    omega

theorem hexEncode_isHex (bs : List (Fin 256)) : ∀ c ∈ hexEncode bs, isHexChar c = true := by
  induction bs with
  | nil => simp [hexEncode]
  | cons b bs ih =>
    intro c hc
    simp only [hexEncode, List.mem_cons] at hc
    rcases hc with rfl | rfl | hc
    · exact (hexDigit_spec ⟨b.val / 16, by omega⟩).1
    · exact (hexDigit_spec ⟨b.val % 16, by omega⟩).1
    · exact ih c hc

theorem hexDecode_hexEncode (bs : List (Fin 256)) :
    hexDecode ((hexEncode bs).map Char.toNat) = .ok bs := by
  induction bs with
  | nil => rfl
  | cons b bs ih =>
    have h1 := (hexDigit_spec ⟨b.val / 16, by omega⟩).2
    have h2 := (hexDigit_spec ⟨b.val % 16, by omega⟩).2
    simp only at h1 h2
    simp only [hexEncode, List.map_cons, hexDecode, h1, h2, ih]
    congr 2
    apply Fin.ext
    simp only [Fin.ofNat, Fin.val_mk]
    omega

theorem wellFormed_Hex (oid : ObjectID) : WellFormedID oid.Hex := by
  refine ⟨?_, ?_⟩
  · show (hexEncode oid.val).length = 24
    rw [hexEncode_length, oid.property]
  · exact hexEncode_isHex oid.val

theorem ObjectIDFromHex_Hex (oid : ObjectID) : ObjectIDFromHex oid.Hex = .ok oid := by
  have hb : goBytes oid.Hex = (hexEncode oid.val).map Char.toNat :=
    bytesOf_of_hex _ (hexEncode_isHex oid.val)
  have hlen : len oid.Hex = 24 := by
    unfold len
    rw [hb, List.length_map, hexEncode_length, oid.property]
  unfold ObjectIDFromHex
  rw [if_neg (by omega), hb, hexDecode_hexEncode]
  simp only [oid.property, dite_true]
  rfl

theorem isValidCard_eq (card : Card) :
    isValidCard card =
      if len card.Name < 2 ∨ len card.Width < 2 ∨ len card.Height < 2 then some errInvalidCard
      else none := by
  unfold isValidCard reflectTypeOfString
  by_cases h1 : len card.Name < 2 <;> by_cases h2 : len card.Width < 2 <;>
    by_cases h3 : len card.Height < 2 <;> simp [h1, h2, h3]

/-! ## Create: validation gate -/

theorem addCard_of_rejected (decode : String → Except String Card)
    (newObjectID driverID : ObjectID) (body : String) (card : Card) (db : Store)
    (hdec : decode body = .ok card) (hbad : isValidCard card ≠ none) :
    addCard decode newObjectID driverID body db =
      ⟨⟨400, .raw (errorBody "isValidCard() failed, missing fields in Insert()")⟩, db, []⟩ := by
  have hv : isValidCard card = some errInvalidCard := by
    rw [isValidCard_eq] at hbad ⊢
    split_ifs at hbad ⊢ with h
    · rfl
    · exact absurd rfl hbad
  simp only [addCard, hdec, hv]
  rfl

/-- C1 counterexample: the request body decodes to a card whose name `é` is
one character, shorter than 2, with a width and a height that are long
enough; `addCard` does not respond 400: it responds 200, issues an insert and
the store holds the new document. -/
theorem addCard_one_character_name_inserted :
    ("é".length < 2) ∧
      accentDecode "\x7b\"name\":\"é\",\"width\":\"10px\",\"height\":\"20px\"\x7d" =
        .ok { ID := NilObjectID, Name := "é", Width := "10px", Height := "20px" } ∧
      addCard accentDecode sampleID otherID
          "\x7b\"name\":\"é\",\"width\":\"10px\",\"height\":\"20px\"\x7d" [] =
        ⟨⟨200, .insertAck ⟨sampleID⟩⟩,
          [{ _id := sampleID, name := some "é", width := some "10px", height := some "20px" }],
          [.InsertOne ⟨some sampleID, some "é", some "10px", some "20px"⟩]⟩ := by
  decide

/-- C1 (amended): for every store state and every request body that decodes to
a card whose name, width or height is shorter than 2 bytes (the length of the
UTF-8 encoding, which is what validation measures), `addCard` responds 400
with the fixed validation message in the error body, issues no call on the
store (no insert) and leaves the store as it was; a card with a missing
(empty) field is such a card. -/
theorem addCard_short_field_rejected (decode : String → Except String Card)
    (newObjectID driverID : ObjectID) (body : String) (card : Card) (db : Store)
    (hdec : decode body = .ok card)
    (hshort : len card.Name < 2 ∨ len card.Width < 2 ∨ len card.Height < 2) :
    addCard decode newObjectID driverID body db =
        ⟨⟨400, .raw (errorBody "isValidCard() failed, missing fields in Insert()")⟩, db, []⟩ ∧
      ∀ c : Card, (c.Name = "" ∨ c.Width = "" ∨ c.Height = "") →
        (len c.Name < 2 ∨ len c.Width < 2 ∨ len c.Height < 2) := by
  constructor
  · apply addCard_of_rejected decode newObjectID driverID body card db hdec
    rw [isValidCard_eq, if_pos hshort]
    simp
  · intro c hc
    have hempty : len "" = 0 := rfl
    rcases hc with h | h | h
    · exact Or.inl (by rw [h, hempty]; omega)
    · exact Or.inr (Or.inl (by rw [h, hempty]; omega))
    · exact Or.inr (Or.inr (by rw [h, hempty]; omega))

/-- C1 witness: the body of `TestAddCardIncompleteDataSent`, with the name and
the width missing, on a store holding one card. -/
theorem addCard_short_field_rejected_witness :
    addCard testDecode sampleID otherID "\x7b\"Height\":\"333px\"\x7d" [sampleDoc] =
        ⟨⟨400, .raw (errorBody "isValidCard() failed, missing fields in Insert()")⟩,
          [sampleDoc], []⟩ ∧
      ∀ c : Card, (c.Name = "" ∨ c.Width = "" ∨ c.Height = "") →
        (len c.Name < 2 ∨ len c.Width < 2 ∨ len c.Height < 2) :=
  addCard_short_field_rejected testDecode sampleID otherID "\x7b\"Height\":\"333px\"\x7d"
    { ID := NilObjectID, Name := "", Width := "", Height := "333px" } [sampleDoc]
    (by decide) (by decide)

/-! ## Validation rule -/

/-- C2 counterexample: the name `é` is one character, shorter than 2, and the
width and height are long enough, yet `isValidCard` returns no error: the name
is 2 bytes long. -/
theorem isValidCard_accepts_one_character_name :
    ("é".length < 2) ∧
      isValidCard { ID := NilObjectID, Name := "é", Width := "10px", Height := "20px" } = none := by
  decide

/-- C2 (amended): for every card, `isValidCard` returns its error if and only
if the name, the width or the height is shorter than 2 bytes (the length of
the UTF-8 encoding, which is what `len` measures), and returns nil if and only
if all three are at least 2 bytes long. -/
theorem isValidCard_iff_byte_length (card : Card) :
    (isValidCard card = some errInvalidCard ↔
        (len card.Name < 2 ∨ len card.Width < 2 ∨ len card.Height < 2)) ∧
      (isValidCard card = none ↔
        (2 ≤ len card.Name ∧ 2 ≤ len card.Width ∧ 2 ≤ len card.Height)) := by
  rw [isValidCard_eq]
  split_ifs with h
  · refine ⟨by simp [h], ?_⟩
    simp only [false_iff, reduceCtorEq]
    omega
  · refine ⟨by simp [h], ?_⟩
    simp only [true_iff]
    omega

/-! ## Create: insertion -/

theorem marshalCard_valid (card : Card) (id : ObjectID) (hid : id ≠ NilObjectID)
    (hname : 2 ≤ len card.Name) (hwidth : 2 ≤ len card.Width) (hheight : 2 ≤ len card.Height) :
    marshalCard { card with ID := id } =
      ⟨some id, some card.Name, some card.Width, some card.Height⟩ := by
  unfold marshalCard ObjectID.IsZero
  simp only [decide_eq_true_eq, if_neg hid]
  rw [if_neg (by omega), if_neg (by omega), if_neg (by omega)]

theorem InsertOne_ok_iff (doc : BsonCard) (id driverID : ObjectID) (db : Store)
    (hdoc : doc._id = some id) :
    (∃ r, InsertOne doc driverID db = .ok r) ↔ ∀ d ∈ db, d._id ≠ id := by
  unfold InsertOne
  simp only [hdoc]
  by_cases h : db.any (fun d => d._id == id) = true
  · simp only [h, if_true]
    simp only [List.any_eq_true, beq_iff_eq] at h
    obtain ⟨d, hd, hd'⟩ := h
    constructor
    · rintro ⟨r, hr⟩
      cases hr
    · intro hall
      exact absurd hd' (hall d hd)
  · simp only [h]
    simp only [List.any_eq_true, beq_iff_eq, not_exists, not_and] at h
    constructor
    · intro _ d hd
      exact h d hd
    · intro _
      exact ⟨_, rfl⟩

theorem addCard_valid_eq (decode : String → Except String Card)
    (newObjectID driverID : ObjectID) (body : String) (card : Card) (db : Store)
    (hdec : decode body = .ok card)
    (hname : 2 ≤ card.Name.length) (hwidth : 2 ≤ card.Width.length)
    (hheight : 2 ≤ card.Height.length) (hfresh : newObjectID ≠ NilObjectID)
    (hins : ∀ d ∈ db, d._id ≠ newObjectID) :
    addCard decode newObjectID driverID body db =
      ⟨⟨200, .insertAck ⟨newObjectID⟩⟩,
        db ++ [{ _id := newObjectID, name := some card.Name, width := some card.Width,
                 height := some card.Height }],
        [.InsertOne ⟨some newObjectID, some card.Name, some card.Width, some card.Height⟩]⟩ := by
  have h1 := length_le_len card.Name
  have h2 := length_le_len card.Width
  have h3 := length_le_len card.Height
  have hv : isValidCard card = none := by
    rw [isValidCard_eq, if_neg (by omega)]
  have hm := marshalCard_valid card newObjectID hfresh (by omega) (by omega) (by omega)
  have hany : db.any (fun d => d._id == newObjectID) = false := by
    rw [Bool.eq_false_iff]
    intro h
    simp only [List.any_eq_true, beq_iff_eq] at h
    obtain ⟨d, hd, hd'⟩ := h
    exact hins d hd hd'
  simp only [addCard, hdec, hv, hm, InsertOne, hany]
  rfl

/-- C3: for every request body that decodes to a card whose name, width and
height each have at least 2 characters, when the id `primitive.NewObjectID`
returns is not the zero id and the store insert succeeds, `addCard` issues one
insert, the store afterwards is the store before plus exactly one document
whose id is the generated id (whatever `_id` the payload carried) and whose
name, width and height are the submitted ones, and the response is 200 with an
acknowledgment whose `InsertedID` is that id, which renders as exactly 24 hex
characters that parse back to it. -/
theorem addCard_valid_card_inserted (decode : String → Except String Card)
    (newObjectID driverID : ObjectID) (body : String) (card : Card) (db : Store)
    (hdec : decode body = .ok card)
    (hname : 2 ≤ card.Name.length) (hwidth : 2 ≤ card.Width.length)
    (hheight : 2 ≤ card.Height.length) (hfresh : newObjectID ≠ NilObjectID)
    (hins : ∃ r, InsertOne (marshalCard { card with ID := newObjectID }) driverID db = .ok r) :
    addCard decode newObjectID driverID body db =
        ⟨⟨200, .insertAck ⟨newObjectID⟩⟩,
          db ++ [{ _id := newObjectID, name := some card.Name, width := some card.Width,
                   height := some card.Height }],
          [.InsertOne ⟨some newObjectID, some card.Name, some card.Width, some card.Height⟩]⟩ ∧
      newObjectID.Hex.length = 24 ∧ (∀ c ∈ newObjectID.Hex.data, isHexChar c = true) ∧
      ObjectIDFromHex newObjectID.Hex = .ok newObjectID := by
  have h1 := length_le_len card.Name
  have h2 := length_le_len card.Width
  have h3 := length_le_len card.Height
  have hm := marshalCard_valid card newObjectID hfresh (by omega) (by omega) (by omega)
  have hfree : ∀ d ∈ db, d._id ≠ newObjectID :=
    (InsertOne_ok_iff _ newObjectID driverID db (by rw [hm])).1 hins
  exact ⟨addCard_valid_eq decode newObjectID driverID body card db hdec hname hwidth hheight
    hfresh hfree, (wellFormed_Hex newObjectID).1, (wellFormed_Hex newObjectID).2,
    ObjectIDFromHex_Hex newObjectID⟩

/-- C3 witness: the body of `TestAddCardGoodDataSent` on a store holding
another card. -/
theorem addCard_valid_card_inserted_witness :
    addCard testDecode sampleID otherID
        "\x7b\"Name\":\"Test card name goes here\",\"Width\":\"111px\",\"Height\":\"222px\"\x7d"
        [otherDoc] =
        ⟨⟨200, .insertAck ⟨sampleID⟩⟩, [otherDoc] ++ [sampleDoc],
          [.InsertOne ⟨some sampleID, some "Test card name goes here", some "111px",
            some "222px"⟩]⟩ ∧
      sampleID.Hex.length = 24 ∧ (∀ c ∈ sampleID.Hex.data, isHexChar c = true) ∧
      ObjectIDFromHex sampleID.Hex = .ok sampleID :=
  addCard_valid_card_inserted testDecode sampleID otherID
    "\x7b\"Name\":\"Test card name goes here\",\"Width\":\"111px\",\"Height\":\"222px\"\x7d"
    { ID := NilObjectID, Name := "Test card name goes here", Width := "111px", Height := "222px" }
    [otherDoc] (by decide) (by decide) (by decide) (by decide) (by decide)
    ⟨(⟨sampleID⟩, [otherDoc, sampleDoc]), by decide⟩

/-! ## Malformed identifiers -/

/-- C4: for every path parameter that is not a well-formed identifier (not
exactly 24 characters, or holding a character that is not a hex digit) and
every store state, `getOneCard`, `deleteCard`, `updateCard` and `getIndex` each
respond 400 with the parse error in the error body, issue no call on the store
and leave the store as it was. -/
theorem malformed_id_is_bad_request (decode : String → Except String Card)
    (render : Card → String) (id body : String) (db : Store) (hbad : ¬ WellFormedID id) :
    ∃ msg, ObjectIDFromHex id = .error msg ∧
      getOneCard id db = ⟨⟨400, .raw (errorBody msg)⟩, db, []⟩ ∧
      deleteCard id db = ⟨⟨400, .raw (errorBody msg)⟩, db, []⟩ ∧
      updateCard decode id body db = ⟨⟨400, .raw (errorBody msg)⟩, db, []⟩ ∧
      getIndex render id db = ⟨⟨400, .raw (errorBody msg)⟩, db, []⟩ := by
  obtain ⟨msg, hmsg⟩ := ObjectIDFromHex_error_of_not_wellFormed id hbad
  refine ⟨msg, hmsg, ?_, ?_, ?_, ?_⟩
  · simp only [getOneCard, hmsg]
    rfl
  · simp only [deleteCard, hmsg]
    rfl
  · simp only [updateCard, hmsg]
    rfl
  · simp only [getIndex, hmsg]
    rfl

/-- C4 witness: the id `123123123` of `TestDeleteCardFailBadId`, on a store
holding one card. -/
theorem malformed_id_is_bad_request_witness :
    ¬ WellFormedID "123123123" ∧
      ∃ msg, ObjectIDFromHex "123123123" = .error msg ∧
        getOneCard "123123123" [sampleDoc] = ⟨⟨400, .raw (errorBody msg)⟩, [sampleDoc], []⟩ ∧
        deleteCard "123123123" [sampleDoc] = ⟨⟨400, .raw (errorBody msg)⟩, [sampleDoc], []⟩ ∧
        updateCard testDecode "123123123" "\x7b\"Width\":\"777px\",\"Height\":\"888px\"\x7d"
          [sampleDoc] = ⟨⟨400, .raw (errorBody msg)⟩, [sampleDoc], []⟩ ∧
        getIndex testRender "123123123" [sampleDoc] =
          ⟨⟨400, .raw (errorBody msg)⟩, [sampleDoc], []⟩ :=
  ⟨by decide, malformed_id_is_bad_request testDecode testRender "123123123"
    "\x7b\"Width\":\"777px\",\"Height\":\"888px\"\x7d" [sampleDoc] (by decide)⟩

/-! ## Get-one -/

theorem matchesFilter_id (oid : ObjectID) (d : Doc) :
    matchesFilter ⟨some oid, none, none, none⟩ d = true ↔ d._id = oid := by
  unfold matchesFilter
  simp only [Option.isNone_some, Option.isNone_none, Bool.false_or, Bool.true_or, Bool.and_true,
    beq_iff_eq, Option.some.injEq]
  exact eq_comm

theorem marshalCard_id_filter (oid : ObjectID) (h : oid ≠ NilObjectID) :
    marshalCard { ID := oid, Name := "", Width := "", Height := "" } =
      ⟨some oid, none, none, none⟩ := by
  unfold marshalCard ObjectID.IsZero
  simp only [decide_eq_true_eq, if_neg h]
  rfl

/-- C5: evaluation at the failing input.  The all-zero identifier is
well-formed and no stored document has it, yet `getOneCard` responds 200 with
the stored card of another id: the filter `Card{ID: id}` loses its `_id` under
`omitempty` and matches every document.  On the same store `deleteCard`, whose
filter names `_id`, matches nothing. -/
theorem getOneCard_zero_id_matches_any_document :
    WellFormedID "000000000000000000000000" ∧
      ObjectIDFromHex "000000000000000000000000" = .ok NilObjectID ∧
      (∀ d ∈ [sampleDoc], d._id ≠ NilObjectID) ∧
      getOneCard "000000000000000000000000" [sampleDoc] =
        ⟨⟨200, .card (decodeDoc sampleDoc)⟩, [sampleDoc], [.FindOne ⟨none, none, none, none⟩]⟩ ∧
      (decodeDoc sampleDoc).ID ≠ NilObjectID ∧
      deleteCard "000000000000000000000000" [sampleDoc] =
        ⟨⟨200, .deleteAck ⟨0⟩⟩, [sampleDoc], [.DeleteOne NilObjectID]⟩ := by
  decide

theorem getOneCard_nonzero (id : String) (oid : ObjectID) (db : Store)
    (hid : ObjectIDFromHex id = .ok oid) (hnz : oid ≠ NilObjectID) :
    getOneCard id db =
      match db.find? (fun d => d._id == oid) with
      | none => ⟨⟨404, .raw (errorBody ErrNoDocuments)⟩, db, [.FindOne ⟨some oid, none, none, none⟩]⟩
      | some d => ⟨⟨200, .card (decodeDoc d)⟩, db, [.FindOne ⟨some oid, none, none, none⟩]⟩ := by
  have hf : matchesFilter ⟨some oid, none, none, none⟩ = fun d => d._id == oid := by
    funext d
    rw [Bool.eq_iff_iff, matchesFilter_id]
    simp
  simp only [getOneCard, hid, marshalCard_id_filter oid hnz, FindOne, hf]
  cases db.find? (fun d => d._id == oid) <;> rfl

/-! ## Round trip -/

/-- C6: round trip.  For every store state and every request body that decodes
to a card whose name, width and height each have at least 2 characters, with
`primitive.NewObjectID` returning an id that is not the zero id: if `addCard`
responds 200 with the identifier `X`, then `getOneCard` on the hex form of
`X`, on the store `addCard` left, responds 200 with the card whose id is `X`
and whose name, width and height are the submitted ones, and changes
nothing. -/
theorem create_then_get_roundtrip (decode : String → Except String Card)
    (newObjectID driverID X : ObjectID) (body : String) (card : Card) (db : Store)
    (hdec : decode body = .ok card)
    (hname : 2 ≤ card.Name.length) (hwidth : 2 ≤ card.Width.length)
    (hheight : 2 ≤ card.Height.length) (hfresh : newObjectID ≠ NilObjectID)
    (hadd : (addCard decode newObjectID driverID body db).resp = ⟨200, .insertAck ⟨X⟩⟩) :
    (getOneCard X.Hex (addCard decode newObjectID driverID body db).db).resp =
        ⟨200, .card { ID := X, Name := card.Name, Width := card.Width, Height := card.Height }⟩ ∧
      (getOneCard X.Hex (addCard decode newObjectID driverID body db).db).db =
        (addCard decode newObjectID driverID body db).db := by
  have h1 := length_le_len card.Name
  have h2 := length_le_len card.Width
  have h3 := length_le_len card.Height
  have hm := marshalCard_valid card newObjectID hfresh (by omega) (by omega) (by omega)
  have hfree : ∀ d ∈ db, d._id ≠ newObjectID := by
    by_contra hcon
    have hv : isValidCard card = none := by
      rw [isValidCard_eq, if_neg (by omega)]
    have hany : db.any (fun d => d._id == newObjectID) = true := by
      simp only [not_forall, not_not] at hcon
      obtain ⟨d, hd, hd'⟩ := hcon
      simp only [List.any_eq_true, beq_iff_eq]
      exact ⟨d, hd, hd'⟩
    simp only [addCard, hdec, hv, hm, InsertOne, hany, if_true] at hadd
    have hst := congrArg Response.status hadd
    simp [StatusBadRequest] at hst
  have heq := addCard_valid_eq decode newObjectID driverID body card db hdec hname hwidth
    hheight hfresh hfree
  rw [heq] at hadd ⊢
  have hX : X = newObjectID := by
    have := congrArg Response.body hadd
    simp only [Body.insertAck.injEq, InsertOneResult.mk.injEq] at this
    exact this.symm
  subst hX
  rw [getOneCard_nonzero X.Hex X _ (ObjectIDFromHex_Hex X) hfresh]
  have hnone : db.find? (fun d => d._id == X) = none := by
    rw [List.find?_eq_none]
    intro d hd
    simpa using hfree d hd
  simp only [List.find?_append, hnone, Option.none_or, List.find?_cons, beq_self_eq_true,
    decodeDoc, Option.getD_some]
  exact ⟨trivial, trivial⟩

/-- C6 witness: the card of `TestAddCardGoodDataSent` created on a store
holding another card, then fetched by the returned id. -/
theorem create_then_get_roundtrip_witness :
    (getOneCard sampleID.Hex (addCard testDecode sampleID otherID
        "\x7b\"Name\":\"Test card name goes here\",\"Width\":\"111px\",\"Height\":\"222px\"\x7d"
        [otherDoc]).db).resp =
        ⟨200, .card ⟨sampleID, "Test card name goes here", "111px", "222px"⟩⟩ ∧
      (getOneCard sampleID.Hex (addCard testDecode sampleID otherID
        "\x7b\"Name\":\"Test card name goes here\",\"Width\":\"111px\",\"Height\":\"222px\"\x7d"
        [otherDoc]).db).db =
        (addCard testDecode sampleID otherID
        "\x7b\"Name\":\"Test card name goes here\",\"Width\":\"111px\",\"Height\":\"222px\"\x7d"
        [otherDoc]).db :=
  create_then_get_roundtrip testDecode sampleID otherID sampleID
    "\x7b\"Name\":\"Test card name goes here\",\"Width\":\"111px\",\"Height\":\"222px\"\x7d"
    { ID := NilObjectID, Name := "Test card name goes here", Width := "111px", Height := "222px" }
    [otherDoc] (by decide) (by decide) (by decide) (by decide) (by decide) (by decide)

/-! ## Update -/

theorem updateFirst_of_no_match (id : ObjectID) (w h : String) (db : Store)
    (hno : ∀ d ∈ db, d._id ≠ id) : updateFirst id w h db = db := by
  induction db with
  | nil => rfl
  | cons d ds ih =>
    simp only [updateFirst, if_neg (hno d (by simp))]
    rw [ih (fun e he => hno e (by simp [he]))]

theorem map_of_no_match (id : ObjectID) (w h : String) (db : Store)
    (hno : ∀ d ∈ db, d._id ≠ id) :
    db.map (fun d => if d._id = id then setWidthHeight w h d else d) = db := by
  induction db with
  | nil => rfl
  | cons d ds ih =>
    simp only [List.map_cons, if_neg (hno d (by simp))]
    rw [ih (fun e he => hno e (by simp [he]))]

theorem updateFirst_eq_map (id : ObjectID) (w h : String) (db : Store) (huniq : db.UniqueIds) :
    updateFirst id w h db = db.map (fun d => if d._id = id then setWidthHeight w h d else d) := by
  induction db with
  | nil => rfl
  | cons d ds ih =>
    unfold Store.UniqueIds at huniq ih
    simp only [List.map_cons, List.nodup_cons, List.mem_map, not_exists, not_and] at huniq
    by_cases hd : d._id = id
    · simp only [updateFirst, List.map_cons, if_pos hd]
      rw [map_of_no_match id w h ds (fun e he heq => huniq.1 e he (heq.trans hd.symm))]
    · simp only [updateFirst, List.map_cons, if_neg hd]
      rw [ih huniq.2]

theorem UpdateOne_store (id : ObjectID) (w h : String) (db : Store) :
    ∃ ack, UpdateOne id w h db = .ok (ack, updateFirst id w h db) := by
  unfold UpdateOne
  cases hf : db.find? (fun d => d._id == id) with
  | none =>
    rw [List.find?_eq_none] at hf
    rw [updateFirst_of_no_match id w h db (fun d hd => by simpa using hf d hd)]
    exact ⟨_, rfl⟩
  | some d => exact ⟨_, rfl⟩

/-- C7: for every well-formed id (one that parses to `oid`) and every request
body that decodes, whatever the decoded width and height are (no validation,
the empty string of an empty or absent value included), `updateCard` issues
one update and responds 200 with the update acknowledgment; in the store
afterwards the document with that id has its width and height set to exactly
the submitted values and its id and name as before, and every other document
is as before (`_id` being unique in the store). -/
theorem updateCard_sets_width_height (decode : String → Except String Card)
    (id body : String) (oid : ObjectID) (card : Card) (db : Store)
    (hid : ObjectIDFromHex id = .ok oid) (hdec : decode body = .ok card)
    (huniq : db.UniqueIds) :
    ∃ ack, updateCard decode id body db =
      ⟨⟨200, .updateAck ack⟩,
        db.map (fun d =>
          if d._id = oid then
            { _id := d._id, name := d.name, width := some card.Width, height := some card.Height }
          else d),
        [.UpdateOne oid card.Width card.Height]⟩ := by
  obtain ⟨ack, hack⟩ := UpdateOne_store oid card.Width card.Height db
  refine ⟨ack, ?_⟩
  simp only [updateCard, hid, hdec, hack]
  rw [updateFirst_eq_map oid card.Width card.Height db huniq]
  rfl

/-- C7 witness: an update with an empty width and no height on a store of two
cards empties both fields of the addressed card and leaves the other card. -/
theorem updateCard_sets_width_height_witness :
    ∃ ack, updateCard testDecode "654a1f009c3b7a102d440001" "\x7b\"Width\":\"\"\x7d"
        [sampleDoc, otherDoc] =
      ⟨⟨200, .updateAck ack⟩,
        [sampleDoc, otherDoc].map (fun d =>
          if d._id = sampleID then
            { _id := d._id, name := d.name, width := some "", height := some "" }
          else d),
        [.UpdateOne sampleID "" ""]⟩ :=
  updateCard_sets_width_height testDecode "654a1f009c3b7a102d440001" "\x7b\"Width\":\"\"\x7d"
    sampleID { ID := NilObjectID, Name := "", Width := "", Height := "" } [sampleDoc, otherDoc]
    (by decide) (by decide) (by decide)

/-! ## List -/

/-- C8: for every store state, `getAllCards` responds 404 with the message
`No records found` in the error body when the collection holds no documents,
and otherwise responds 200 with the array of the stored cards, one per stored
document; either way it issues one find and leaves the store as it was. -/
theorem getAllCards_by_store_size (db : Store) :
    getAllCards db =
        (if db = [] then ⟨⟨404, .raw (errorBody "No records found")⟩, db, [.Find]⟩
         else ⟨⟨200, .cards (db.map decodeDoc)⟩, db, [.Find]⟩) ∧
      (db.map decodeDoc).length = db.length := by
  refine ⟨?_, List.length_map _ _⟩
  cases db with
  | nil => rfl
  | cons d ds =>
    simp only [getAllCards, Find, List.length_map, List.length_cons]
    rw [if_neg (by omega), if_neg (by simp)]
    rfl

/-! ## Delete -/

theorem removeFirst_eq_filter (id : ObjectID) (db : Store) (huniq : db.UniqueIds) :
    removeFirst id db = db.filter (fun d => d._id != id) := by
  induction db with
  | nil => rfl
  | cons d ds ih =>
    unfold Store.UniqueIds at huniq ih
    simp only [List.map_cons, List.nodup_cons, List.mem_map, not_exists, not_and] at huniq
    by_cases hd : d._id = id
    · have hrest : ds.filter (fun e => e._id != id) = ds := by
        rw [List.filter_eq_self]
        intro e he
        simpa using fun heq : e._id = id => huniq.1 e he (heq.trans hd.symm)
      simp only [removeFirst, if_pos hd, List.filter_cons, hd, bne_self_eq_false, hrest]
      rfl
    · have hne : (d._id != id) = true := by simpa using hd
      simp only [removeFirst, if_neg hd, List.filter_cons, hne, if_true]
      rw [ih huniq.2]

/-- C9: for every well-formed id (one that parses to `oid`) and every store
state with unique ids: when no stored document has that id, `deleteCard`
responds 200 with a deletion acknowledgment whose deleted count is 0 and
leaves the store as it was; when a stored document has that id, it responds
200 with a deleted count of 1, and afterwards no stored document has that id
while every other document is still stored. -/
theorem deleteCard_by_presence (id : String) (oid : ObjectID) (db : Store)
    (hid : ObjectIDFromHex id = .ok oid) (huniq : db.UniqueIds) :
    ((∀ d ∈ db, d._id ≠ oid) →
        deleteCard id db = ⟨⟨200, .deleteAck ⟨0⟩⟩, db, [.DeleteOne oid]⟩) ∧
      ((∃ d ∈ db, d._id = oid) →
        deleteCard id db =
            ⟨⟨200, .deleteAck ⟨1⟩⟩, db.filter (fun d => d._id != oid), [.DeleteOne oid]⟩ ∧
          ∀ d ∈ (deleteCard id db).db, d._id ≠ oid) := by
  constructor
  · intro hno
    have hany : db.any (fun d => d._id == oid) = false := by
      rw [Bool.eq_false_iff]
      intro h
      simp only [List.any_eq_true, beq_iff_eq] at h
      obtain ⟨d, hd, hd'⟩ := h
      exact hno d hd hd'
    simp only [deleteCard, hid, DeleteOne, hany]
    rfl
  · rintro ⟨d, hd, hd'⟩
    have hany : db.any (fun d => d._id == oid) = true := by
      simp only [List.any_eq_true, beq_iff_eq]
      exact ⟨d, hd, hd'⟩
    have heq : deleteCard id db =
        ⟨⟨200, .deleteAck ⟨1⟩⟩, db.filter (fun d => d._id != oid), [.DeleteOne oid]⟩ := by
      simp only [deleteCard, hid, DeleteOne, hany, if_true]
      rw [removeFirst_eq_filter oid db huniq]
      rfl
    refine ⟨heq, ?_⟩
    rw [heq]
    intro e he
    simp only [List.mem_filter, bne_iff_ne, ne_eq] at he
    exact he.2

/-- C9 witness: on a store of two cards with unique ids, deleting the id of
the first one answers 200 with a deleted count of 1 and leaves the second. -/
theorem deleteCard_by_presence_witness :
    ((∀ d ∈ [sampleDoc, otherDoc], d._id ≠ sampleID) →
        deleteCard "654a1f009c3b7a102d440001" [sampleDoc, otherDoc] =
          ⟨⟨200, .deleteAck ⟨0⟩⟩, [sampleDoc, otherDoc], [.DeleteOne sampleID]⟩) ∧
      ((∃ d ∈ [sampleDoc, otherDoc], d._id = sampleID) →
        deleteCard "654a1f009c3b7a102d440001" [sampleDoc, otherDoc] =
            ⟨⟨200, .deleteAck ⟨1⟩⟩, [sampleDoc, otherDoc].filter (fun d => d._id != sampleID),
              [.DeleteOne sampleID]⟩ ∧
          ∀ d ∈ (deleteCard "654a1f009c3b7a102d440001" [sampleDoc, otherDoc]).db,
            d._id ≠ sampleID) :=
  deleteCard_by_presence "654a1f009c3b7a102d440001" sampleID [sampleDoc, otherDoc]
    (by decide) (by decide)

/-! ## The store invariant -/

theorem updateFirst_ids (id : ObjectID) (w h : String) (db : Store) :
    (updateFirst id w h db).map (fun d => d._id) = db.map (fun d => d._id) := by
  induction db with
  | nil => rfl
  | cons d ds ih =>
    by_cases hd : d._id = id
    · simp only [updateFirst, if_pos hd, List.map_cons, setWidthHeight]
    · simp only [updateFirst, if_neg hd, List.map_cons, ih]

theorem removeFirst_sublist (id : ObjectID) (db : Store) :
    List.Sublist (removeFirst id db) db := by
  induction db with
  | nil => exact List.Sublist.refl _
  | cons d ds ih =>
    by_cases hd : d._id = id
    · simp only [removeFirst, if_pos hd]
      exact List.sublist_cons_self d ds
    · simp only [removeFirst, if_neg hd]
      exact List.Sublist.cons₂ d ih

theorem InsertOne_uniqueIds (doc : BsonCard) (driverID : ObjectID) (db db' : Store)
    (ret : InsertOneResult) (huniq : db.UniqueIds)
    (h : InsertOne doc driverID db = .ok (ret, db')) : db'.UniqueIds := by
  unfold InsertOne at h
  simp only [] at h
  split_ifs at h with hany
  simp only [Except.ok.injEq, Prod.mk.injEq] at h
  obtain ⟨_, rfl⟩ := h
  unfold Store.UniqueIds at huniq ⊢
  simp only [List.map_append, List.map_cons, List.map_nil]
  rw [List.nodup_append]
  refine ⟨huniq, List.nodup_singleton _, ?_⟩
  intro x hx hx'
  simp only [List.mem_singleton] at hx'
  subst hx'
  simp only [List.mem_map] at hx
  obtain ⟨d, hd, hd'⟩ := hx
  apply hany
  simp only [List.any_eq_true, beq_iff_eq]
  exact ⟨d, hd, hd'⟩

theorem UpdateOne_uniqueIds (id : ObjectID) (w h : String) (db db' : Store)
    (ret : UpdateResult) (huniq : db.UniqueIds)
    (hu : UpdateOne id w h db = .ok (ret, db')) : db'.UniqueIds := by
  obtain ⟨ack, hack⟩ := UpdateOne_store id w h db
  rw [hack] at hu
  simp only [Except.ok.injEq, Prod.mk.injEq] at hu
  obtain ⟨_, rfl⟩ := hu
  unfold Store.UniqueIds at huniq ⊢
  rw [updateFirst_ids]
  exact huniq

theorem DeleteOne_uniqueIds (id : ObjectID) (db db' : Store) (ret : DeleteResult)
    (huniq : db.UniqueIds) (hd : DeleteOne id db = .ok (ret, db')) : db'.UniqueIds := by
  unfold DeleteOne at hd
  unfold Store.UniqueIds at huniq ⊢
  split_ifs at hd
  · simp only [Except.ok.injEq, Prod.mk.injEq] at hd
    obtain ⟨_, rfl⟩ := hd
    exact List.Nodup.sublist ((removeFirst_sublist id db).map _) huniq
  · simp only [Except.ok.injEq, Prod.mk.injEq] at hd
    obtain ⟨_, rfl⟩ := hd
    exact huniq

/-! ## Error bodies -/

/-- C10: evaluation at the failing input.  The path parameter of 24 bytes that
starts with a double quote makes `getOneCard` respond 400 with the message of
`encoding/hex` pasted into the body unescaped; the message holds a double
quote, so the body is not a well-formed JSON object with an `"error"` string.
The fixed message of `getAllCards`, which holds none, gives a well-formed
body. -/
theorem error_body_with_quote_is_malformed :
    getOneCard "\"00000000000000000000000" [] =
        ⟨⟨400, .raw "\x7b \"error\": \"encoding/hex: invalid byte: U+0022 '\"'\" \x7d"⟩, [], []⟩ ∧
      parseErrorEnvelope "\x7b \"error\": \"encoding/hex: invalid byte: U+0022 '\"'\" \x7d" = none ∧
      parseErrorEnvelope (errorBody "No records found") = some "No records found" := by
  decide

/-! ## Server lifecycle -/

theorem listenerNeverDone_startHttp : ListenerNeverDone startHttp := by
  unfold ListenerNeverDone startHttp
  decide

theorem listenerStep_preserves (p : Process) (h : ListenerNeverDone p) :
    ListenerNeverDone (listenerStep p) := by
  obtain ⟨exit, wg, closed, listener, main⟩ := p
  obtain ⟨hwg, hdone, hnil, hmain⟩ := h
  simp only at hwg hdone hnil hmain
  cases listener with
  | serving =>
    cases closed with
    | true => exact ⟨hwg, by simp [listenerStep], by simp [listenerStep, ListenAndServe], hmain⟩
    | false => exact ⟨hwg, hdone, hnil, hmain⟩
  | returned err =>
    cases err with
    | none => exact absurd rfl hnil
    | some e => exact ⟨hwg, hdone, hnil, hmain⟩
  | done => exact absurd rfl hdone

theorem stopHttp_preserves (shutdownErr closeErr : Option String) (p : Process)
    (h : ListenerNeverDone p) : ListenerNeverDone (stopHttp shutdownErr closeErr p) := by
  obtain ⟨exit, wg, closed, listener, main⟩ := p
  obtain ⟨hwg, hdone, hnil, hmain⟩ := h
  simp only at hwg hdone hnil hmain
  cases main with
  | awaitSignal => exact ⟨hwg, hdone, hnil, hmain⟩
  | shutdown =>
    cases shutdownErr with
    | none => exact ⟨hwg, hdone, hnil, by simp [stopHttp]⟩
    | some e =>
      cases closeErr with
      | none => exact ⟨hwg, hdone, hnil, by simp [stopHttp]⟩
      | some e' => exact ⟨hwg, hdone, hnil, by simp [stopHttp]⟩
  | wait =>
    subst hwg
    exact ⟨rfl, hdone, hnil, by simp [stopHttp]⟩
  | returned err => exact ⟨hwg, hdone, hnil, hmain⟩

theorem step_preserves (p : Process) (e : Event) (h : ListenerNeverDone p) :
    ListenerNeverDone (step p e) := by
  unfold step
  by_cases hexit : p.exitStatus.isSome = true
  · rw [if_pos hexit]
    exact h
  · rw [if_neg hexit]
    cases e with
    | signal =>
      simp only []
      by_cases hm : p.main = .awaitSignal
      · rw [if_pos hm]
        exact ⟨h.1, h.2.1, h.2.2.1, by simp⟩
      · rw [if_neg hm]
        exact h
    | listenerFails msg =>
      simp only []
      by_cases hl : p.listener = .serving ∧ p.closed = false
      · rw [if_pos hl]
        exact ⟨h.1, by simp, by simp [ListenAndServe], h.2.2.2⟩
      · rw [if_neg hl]
        exact h
    | mainRuns shutdownErr closeErr => exact stopHttp_preserves shutdownErr closeErr p h
    | listenerRuns => exact listenerStep_preserves p h

theorem run_preserves (events : List Event) (p : Process) (h : ListenerNeverDone p) :
    ListenerNeverDone (run events p) := by
  induction events generalizing p with
  | nil => exact h
  | cons e es ih => exact ih (step p e) (step_preserves p e h)

/-- C11: evaluation at the failing input.  On a graceful shutdown (the signal
arrives, `Shutdown` succeeds, no listener failure) `ListenAndServe` returns the
non-nil `ErrServerClosed`, so the goroutine of `startHttp` exits the process
with status 6 while `main` is still blocked in `wg.Wait()`.  Whatever the
events and their order, the goroutine never reaches `wg.Done()`, the counter of
the wait group stays 1 and the lifecycle never reaches `Stopped`. -/
theorem graceful_shutdown_exits_with_status_6 :
    (run gracefulShutdown startHttp).exitStatus = some 6 ∧
      (run gracefulShutdown startHttp).listener = .returned (some "http: Server closed") ∧
      (run gracefulShutdown startHttp).main = .wait ∧
      ∀ events : List Event,
        ¬ Stopped (run events startHttp) ∧ (run events startHttp).listener ≠ .done ∧
          (run events startHttp).wg = 1 := by
  refine ⟨by decide, by decide, by decide, ?_⟩
  intro events
  obtain ⟨hwg, hdone, _, hmain⟩ := run_preserves events startHttp listenerNeverDone_startHttp
  exact ⟨fun hs => hmain hs.1, hdone, hwg⟩

end CardService
